import Mathlib

/-!
Shallow embedding of the pint unit-formatting module
(pint/delegates/base_formatter.py): string templating helpers, the core
formatter, the dimension sorter, the spec splitter, the format registry and
the siunitx renderer, together with theorems settling the specification
claims about them.  Exponents are modelled as rationals, Python dicts of
renderers as functions into Option, raised exceptions as the error side of
Except.  Brace characters inside string literals are written with the
escapes \x7b and \x7d.
-/

deriving instance DecidableEq for Except

namespace PintFmt

/-- Models the placeholder substitution of Python str.format for the template
shapes used by the formatter: a brace pair with nothing inside takes the next
argument in sequence, a brace pair holding a single digit takes that
positional argument, and every other character is copied verbatim. -/
def pyFormatAux (args : List String) : Nat → List Char → List Char
  | _, [] => []
  | auto, '\x7b' :: '\x7d' :: rest =>
      (args.getD auto ("")).data ++ pyFormatAux args (auto + 1) rest
  | auto, '\x7b' :: c :: '\x7d' :: rest =>
      if c.isDigit then (args.getD (c.toNat - 48) ("")).data ++ pyFormatAux args auto rest
      else '\x7b' :: c :: '\x7d' :: pyFormatAux args auto rest
  | auto, c :: rest => c :: pyFormatAux args auto rest

/-- Python fmt.format(args...) restricted to the placeholder forms above. -/
def pyFormat (fmt : String) (args : List String) : String :=
  ⟨pyFormatAux args 0 fmt.data⟩

/-- fmt.format(a) with one argument. -/
def pyFormat1 (fmt a : String) : String := pyFormat fmt [a]

/-- fmt.format(a, b) with two arguments. -/
def pyFormat2 (fmt a b : String) : String := pyFormat fmt [a, b]

/-- Helper for the placeholder search: a run of digits directly followed by a
closing brace. -/
def digitsThenClose : List Char → Bool
  | [] => false
  | c :: cs => if c == '\x7d' then true else if c.isDigit then digitsThenClose cs else false

/-- Models searching a string for the regular expression used by
Formatter.__init__ (an opening brace, optional digits, a closing brace),
the test Formatter._join runs to tell a separator template from a
positional-placeholder template. -/
def hasPlaceholder : List Char → Bool
  | [] => false
  | c :: cs => (c == '\x7b' && digitsThenClose cs) || hasPlaceholder cs

/-- Python sep.join(xs): concatenate with sep between elements. -/
def strJoinSep (sep : String) : List String → String
  | [] => ("")
  | x :: xs => xs.foldl (fun acc v => acc ++ sep ++ v) x

/-- The pairwise-fold branch of Formatter._join: repeatedly combine the
accumulated string with the next element through the two-argument template. -/
def foldFormat (fmt : String) : List String → String
  | [] => ("")
  | x :: xs => xs.foldl (fun acc v => pyFormat2 fmt acc v) x

/-- Embeds Formatter._join: empty input gives the empty string; a template
with no positional placeholder is used as a separator; otherwise the
template is folded pairwise over the elements. -/
def join (fmt : String) (xs : List String) : String :=
  if xs = [] then ("")
  else if hasPlaceholder fmt.data then foldFormat fmt xs
  else strJoinSep fmt xs

/-- Decimal digits of num/den (den positive, num < den) until the remainder
vanishes, with bounded depth; used to render terminating decimal fractions. -/
def decDigits : Nat → Nat → Nat → String
  | 0, _, _ => ("")
  | fuel + 1, num, den =>
      if num = 0 then ("")
      else toString (num * 10 / den) ++ decDigits fuel (num * 10 % den) den

/-- Models the default exponent renderer of the formatter (Python format
code n on the exponent value) for exponents whose decimal expansion
terminates: integers print with no decimal point, other rationals print
as sign, integer part, point, fraction digits. -/
def fmt_n (q : ℚ) : String :=
  if q.den = 1 then toString q.num
  else (if q < 0 then ("-") else ("")) ++ toString (q.num.natAbs / q.den)
    ++ (".") ++ decDigits 30 (q.num.natAbs % q.den) q.den

/-- Lexicographic strict comparison of character lists by code point, the
order Python uses on strings. -/
def listLtChar : List Char → List Char → Bool
  | [], [] => false
  | [], _ :: _ => true
  | _ :: _, [] => false
  | a :: as, b :: bs =>
    if a.toNat < b.toNat then true
    else if b.toNat < a.toNat then false
    else listLtChar as bs

/-- Python string comparison (by code points). -/
def strLt (a b : String) : Bool := listLtChar a.data b.data

/-- Python tuple comparison on (unit name, exponent) pairs, as used by
sorted(items) in Formatter.formatter. -/
def pairLE (a b : String × ℚ) : Bool :=
  strLt a.1 b.1 || (a.1 == b.1 && decide (a.2 ≤ b.2))

/-- Stable insertion into a sorted list: the new element goes before the
first element it compares less-or-equal to. -/
def insertSorted (le : α → α → Bool) (x : α) : List α → List α
  | [] => [x]
  | y :: ys => if le x y then x :: y :: ys else y :: insertSorted le x ys

/-- Models Python sorted: a stable ascending sort under the given total
preorder (insertion sort, which agrees with any stable sort). -/
def pySorted (le : α → α → Bool) : List α → List α
  | [] => []
  | x :: xs => insertSorted le x (pySorted le xs)

/-- The registry interface the dimension sorter consumes: canonical name
resolution (an empty string models a falsy result) and the dimensionality
of a canonical name as the list of its dimension tokens. -/
structure Registry where
  get_name : String → String
  get_dimensionality : String → List String

/-- The dimensionality actually bucketed by dim_sort: an empty
dimensionality is replaced by the synthetic dimensionless token. -/
def effDims (r : Registry) (cname : String) : List String :=
  let d := r.get_dimensionality cname
  if d = [] then [("[]")] else d

/-- The KeyError message raised by Formatter.dim_sort. -/
def dimErrMsg (u cname : String) : String :=
  ("Unit ") ++ u ++ (" (aka ") ++ cname ++ (") has no recognized dimensions")

/-- The per-item loop of Formatter.dim_sort: skip items whose canonical name
resolves to a falsy value, tag every other item with the first dimension
token of the configured order found in its dimensionality, and fail with
the KeyError message when no token matches. -/
def assignBuckets (ord : List String) (r : Registry) :
    List (String × ℚ) → Except String (List (String × String × ℚ))
  | [] => .ok []
  | (u, e) :: rest =>
    let cname := r.get_name u
    if cname = ("") then assignBuckets ord r rest
    else
      match ord.find? (fun d => decide (d ∈ effDims r cname)) with
      | some d =>
        match assignBuckets ord r rest with
        | .error m => .error m
        | .ok tagged => .ok ((d, u, e) :: tagged)
      | none => .error (dimErrMsg u cname)

/-- Embeds Formatter.dim_sort: identity when the registry is absent or the
list has at most one item, otherwise bucket the items by first matching
dimension token and concatenate the buckets in configured order. -/
def dim_sort (ord : List String) (reg : Option Registry) (items : List (String × ℚ)) :
    Except String (List (String × ℚ)) :=
  match reg with
  | none => .ok items
  | some r =>
    if items.length ≤ 1 then .ok items
    else
      match assignBuckets ord r items with
      | .error m => .error m
      | .ok tagged =>
        .ok (ord.flatMap (fun d => (tagged.filter (fun t => t.1 == d)).map (fun t => t.2)))

/-- The default dimension order configured in Formatter.__init__. -/
def defaultDimOrder : List String :=
  [("[substance]"), ("[mass]"), ("[current]"), ("[luminosity]"),
   ("[length]"), ("[]"), ("[time]"), ("[temperature]")]

/-- The exponent rendering applied inside the classification loop: the
absolute value is rendered when as_ratio is set, the raw value otherwise. -/
def expApply (as_ratio : Bool) (exp_call : ℚ → String) (x : ℚ) : String :=
  if as_ratio then exp_call |x| else exp_call x

/-- The classification loop of Formatter.formatter: an exponent equal to one
adds the bare unit to the positive list, any other positive exponent adds
the rendered power to the positive list, an exponent of minus one under
as_ratio adds the bare unit to the negative list, and every remaining
exponent adds the rendered power to the negative list. -/
def classify (as_ratio : Bool) (power_fmt : String) (exp_call : ℚ → String) :
    List (String × ℚ) → List String × List String
  | [] => ([], [])
  | (key, value) :: rest =>
    let pn := classify as_ratio power_fmt exp_call rest
    if value = 1 then (key :: pn.1, pn.2)
    else if 0 < value then
      (pyFormat2 power_fmt key (expApply as_ratio exp_call value) :: pn.1, pn.2)
    else if value = -1 ∧ as_ratio = true then (pn.1, key :: pn.2)
    else (pn.1, pyFormat2 power_fmt key (expApply as_ratio exp_call value) :: pn.2)

/-- Embeds Formatter.formatter on the non-localized path (no babel locale
supplied, which is the default): empty input gives the empty string, the
items are optionally sorted alphabetically and then by dimension, the pairs
are classified into positive and negative terms, and the result is joined
as a plain product or as a ratio with either chained divisions or a single
parenthesized denominator. -/
def formatter (items : List (String × ℚ)) (as_ratio single_denominator : Bool)
    (product_fmt division_fmt power_fmt parentheses_fmt : String)
    (exp_call : ℚ → String) (sort sort_dims : Bool)
    (dim_order : List String) (registry : Option Registry) : Except String String :=
  if items = [] then .ok ("")
  else
    let items1 := if sort then pySorted pairLE items else items
    match (if sort_dims then dim_sort dim_order registry items1 else .ok items1) with
    | .error e => .error e
    | .ok items2 =>
      let pn := classify as_ratio power_fmt exp_call items2
      if as_ratio = false then .ok (join product_fmt (pn.1 ++ pn.2))
      else
        let pos_ret := if join product_fmt pn.1 = ("") then ("1") else join product_fmt pn.1
        if pn.2 = [] then .ok pos_ret
        else
          let neg_ret :=
            if single_denominator then
              (if pn.2.length > 1 then pyFormat1 parentheses_fmt (join product_fmt pn.2)
               else join product_fmt pn.2)
            else join division_fmt pn.2
          .ok (join division_fmt [pos_ret, neg_ret])

/-- Description of the positive-list entries following the amended wording of
claim C1: exponent one gives the bare unit, every other positive exponent
(fractional exponents strictly between zero and one included) gives the
rendered power. -/
def specPosTerm (ar : Bool) (pf : String) (ec : ℚ → String) (it : String × ℚ) : Option String :=
  if it.2 = 1 then some it.1
  else if 0 < it.2 then some (pyFormat2 pf it.1 (expApply ar ec it.2))
  else none

/-- Description of the negative-list entries following the amended wording of
claim C1: exponent minus one under as_ratio gives the bare unit, every other
nonpositive exponent gives the power rendered from the absolute value when
as_ratio is set and from the raw value otherwise. -/
def specNegTerm (ar : Bool) (pf : String) (ec : ℚ → String) (it : String × ℚ) : Option String :=
  if it.2 = 1 ∨ 0 < it.2 then none
  else if it.2 = -1 ∧ ar = true then some it.1
  else some (pyFormat2 pf it.1 (expApply ar ec it.2))

/-- C1 (counterexample): the pair (meter, one half) has a fractional exponent
strictly between zero and one, which the claim places in the negative list;
the code classifies it into the positive list and leaves the negative list
empty. -/
theorem claim_C1_counterexample :
    (classify true ("\x7b\x7d ** \x7b\x7d") fmt_n [(("meter"), mkRat 1 2)]).1
        = [("meter ** 0.5")]
      ∧ (classify true ("\x7b\x7d ** \x7b\x7d") fmt_n [(("meter"), mkRat 1 2)]).2 = [] := by
  constructor <;> decide

/-- C1 (amended): the classification loop sends exponent one to the bare unit
in the positive list, every other strictly positive exponent (fractional ones
between zero and one included) to the rendered power in the positive list,
exponent minus one under as_ratio to the bare unit in the negative list, and
every remaining exponent to the rendered power in the negative list, with the
exponent rendered from its absolute value exactly when as_ratio is set. -/
theorem claim_C1_amended_classification (ar : Bool) (pf : String) (ec : ℚ → String)
    (items : List (String × ℚ)) :
    classify ar pf ec items =
      (items.filterMap (specPosTerm ar pf ec), items.filterMap (specNegTerm ar pf ec)) := by
  induction items with
  | nil => rfl
  | cons it rest ih =>
    obtain ⟨key, value⟩ := it
    simp only [classify, ih, List.filterMap_cons]
    by_cases h1 : value = 1
    · simp [specPosTerm, specNegTerm, h1]
    · by_cases h2 : 0 < value
      · simp [specPosTerm, specNegTerm, h1, h2]
      · by_cases h3 : value = -1 ∧ ar = true
        · obtain ⟨hv, har⟩ := h3
          subst hv; subst har
          norm_num [specPosTerm, specNegTerm]
        · simp [specPosTerm, specNegTerm, h1, h2, h3]

/-- C2 (counterexample): with the default option bundle the formatter sorts
the items alphabetically before classifying, so the denominator lists gram
before second and the claimed string meter / (second * gram) is not the
result. -/
theorem claim_C2_counterexample :
    formatter [(("meter"), 1), (("second"), -1), (("gram"), -1)] true true
        (" * ") (" / ") ("\x7b\x7d ** \x7b\x7d") ("(\x7b0\x7d)") fmt_n true true
        defaultDimOrder none
      ≠ Except.ok ("meter / (second * gram)") := by
  decide

/-- C2 (amended): on items meter to the one, second to the minus one and gram
to the minus one, with single_denominator set and every other option at its
default (alphabetical sorting included), the formatter returns
meter / (gram * second). -/
theorem claim_C2_amended_value :
    formatter [(("meter"), 1), (("second"), -1), (("gram"), -1)] true true
        (" * ") (" / ") ("\x7b\x7d ** \x7b\x7d") ("(\x7b0\x7d)") fmt_n true true
        defaultDimOrder none
      = Except.ok ("meter / (gram * second)") := by
  decide

/-- C6: for every template string, joining the empty list gives the empty
string and joining a one-element list gives that element unchanged, whether
the template is a plain separator or carries positional placeholders. -/
theorem claim_C6_join_identity (fmt x : String) :
    join fmt [] = ("") ∧ join fmt [x] = x := by
  refine ⟨rfl, ?_⟩
  by_cases h : hasPlaceholder fmt.data
  · simp [join, h, foldFormat]
  · simp [join, h, strJoinSep]

/-- A unit at which dim_sort must fail: its canonical name is truthy and its
effective dimensionality contains none of the configured dimension tokens. -/
def noDimMatch (ord : List String) (r : Registry) (u : String) : Prop :=
  r.get_name u ≠ ("") ∧ ∀ d ∈ ord, d ∉ effDims r (r.get_name u)

lemma assignBuckets_error_of_mem (ord : List String) (r : Registry) :
    ∀ items : List (String × ℚ), ∀ u : String, ∀ e : ℚ,
      (u, e) ∈ items → noDimMatch ord r u →
      ∃ u', (∃ e', (u', e') ∈ items) ∧ noDimMatch ord r u' ∧
        assignBuckets ord r items = .error (dimErrMsg u' (r.get_name u')) := by
  intro items
  induction items with
  | nil => intro u e hmem _; simp at hmem
  | cons head rest ih =>
    intro u e hmem hfail
    obtain ⟨u0, e0⟩ := head
    by_cases hc : r.get_name u0 = ("")
    · have hne : (u, e) ∈ rest := by
        rcases List.mem_cons.mp hmem with heq | h
        · exfalso
          have hu : u = u0 := (Prod.mk.injEq _ _ _ _ ▸ heq).1
          exact hfail.1 (hu ▸ hc)
        · exact h
      obtain ⟨u', hm, hf, herr⟩ := ih u e hne hfail
      refine ⟨u', ?_, hf, ?_⟩
      · obtain ⟨e', he⟩ := hm
        exact ⟨e', List.mem_cons_of_mem _ he⟩
      · simpa [assignBuckets, hc] using herr
    · cases hfind : ord.find? (fun d => decide (d ∈ effDims r (r.get_name u0))) with
      | none =>
        refine ⟨u0, ⟨e0, List.mem_cons_self _ _⟩, ⟨hc, ?_⟩, ?_⟩
        · intro d hd
          have := List.find?_eq_none.mp hfind d hd
          simpa using this
        · simp [assignBuckets, hc, hfind]
      | some d =>
        have hne : (u, e) ∈ rest := by
          rcases List.mem_cons.mp hmem with heq | h
          · exfalso
            have hu : u = u0 := (Prod.mk.injEq _ _ _ _ ▸ heq).1
            have hdm := List.mem_of_find?_eq_some hfind
            have hdt := List.find?_some hfind
            simp only [decide_eq_true_eq] at hdt
            exact (hu ▸ hfail.2 d hdm) hdt
          · exact h
        obtain ⟨u', hm, hf, herr⟩ := ih u e hne hfail
        refine ⟨u', ?_, hf, ?_⟩
        · obtain ⟨e', he⟩ := hm
          exact ⟨e', List.mem_cons_of_mem _ he⟩
        · simp [assignBuckets, hc, hfind, herr]

/-- C7: with a registry and at least two items, whenever some item has a
truthy canonical name whose effective dimensionality matches none of the
configured dimension tokens, dim_sort fails, and the error message names an
offending unit; with no registry, or with fewer than two items, dim_sort
returns its input unchanged. -/
theorem claim_C7_dim_sort_error (ord : List String) (r : Registry)
    (items : List (String × ℚ)) (u : String) (e : ℚ)
    (h2 : 2 ≤ items.length) (hmem : (u, e) ∈ items) (hfail : noDimMatch ord r u) :
    (∃ u', (∃ e', (u', e') ∈ items) ∧ noDimMatch ord r u' ∧
        dim_sort ord (some r) items = .error (dimErrMsg u' (r.get_name u')))
      ∧ (∀ its : List (String × ℚ), dim_sort ord none its = .ok its)
      ∧ (∀ its : List (String × ℚ), its.length < 2 → dim_sort ord (some r) its = .ok its) := by
  refine ⟨?_, fun its => rfl, fun its h => ?_⟩
  · obtain ⟨u', hm, hf, herr⟩ := assignBuckets_error_of_mem ord r items u e hmem hfail
    have hlen : ¬ items.length ≤ 1 := by omega
    exact ⟨u', hm, hf, by simp [dim_sort, hlen, herr]⟩
  · have hle : its.length ≤ 1 := by omega
    simp [dim_sort, hle]

/-- Concrete registry for the C7 witness: units resolve to themselves and
only gram carries the mass dimension. -/
def wreg7 : Registry :=
  ⟨fun u => u, fun c => if c = ("gram") then [("[mass]")] else [("[length]")]⟩

/-- C7 witness: with dimension order holding only the mass token, the pair
list meter, gram makes dim_sort fail naming meter. -/
theorem claim_C7_witness :
    (∃ u', (∃ e', (u', e') ∈ [(("meter"), (1:ℚ)), (("gram"), (1:ℚ))]) ∧
        noDimMatch [("[mass]")] wreg7 u' ∧
        dim_sort [("[mass]")] (some wreg7) [(("meter"), (1:ℚ)), (("gram"), (1:ℚ))]
          = .error (dimErrMsg u' (wreg7.get_name u')))
      ∧ (∀ its : List (String × ℚ), dim_sort [("[mass]")] none its = .ok its)
      ∧ (∀ its : List (String × ℚ), its.length < 2 →
          dim_sort [("[mass]")] (some wreg7) its = .ok its) :=
  claim_C7_dim_sort_error [("[mass]")] wreg7 [(("meter"), 1), (("gram"), 1)] ("meter") 1
    (by decide) (by decide) (by constructor <;> decide)

lemma assignBuckets_ok_names (ord : List String) (r : Registry) :
    ∀ items tagged, assignBuckets ord r items = .ok tagged →
      ∀ t ∈ tagged, r.get_name t.2.1 ≠ ("") := by
  intro items
  induction items with
  | nil =>
    intro tagged h t ht
    simp only [assignBuckets] at h
    cases h
    simp at ht
  | cons head rest ih =>
    intro tagged h t ht
    obtain ⟨u0, e0⟩ := head
    by_cases hc : r.get_name u0 = ("")
    · exact ih tagged (by simpa [assignBuckets, hc] using h) t ht
    · cases hfind : ord.find? (fun d => decide (d ∈ effDims r (r.get_name u0))) with
      | none => simp [assignBuckets, hc, hfind] at h
      | some d =>
        cases hrest : assignBuckets ord r rest with
        | error m => simp [assignBuckets, hc, hfind, hrest] at h
        | ok tg =>
          have htag : (d, u0, e0) :: tg = tagged := by
            simpa [assignBuckets, hc, hfind, hrest] using h
          rw [← htag] at ht
          rcases List.mem_cons.mp ht with rfl | hmemt
          · simpa using hc
          · exact ih tg hrest t hmemt

/-- C9: when the registry resolves a unit to a falsy canonical name, dim_sort
(on its active path: registry present, at least two items, successful return)
silently drops that pair: the pair is absent from the returned list, which is
therefore not a permutation of the input. -/
theorem claim_C9_dim_sort_omits (ord : List String) (r : Registry)
    (items ret : List (String × ℚ)) (u : String) (e : ℚ)
    (h2 : 2 ≤ items.length) (hmem : (u, e) ∈ items) (hname : r.get_name u = (""))
    (hok : dim_sort ord (some r) items = .ok ret) :
    (u, e) ∉ ret ∧ ¬ items.Perm ret := by
  have hlen : ¬ items.length ≤ 1 := by omega
  have hnotin : (u, e) ∉ ret := by
    intro hin
    simp only [dim_sort, if_neg hlen] at hok
    cases hab : assignBuckets ord r items with
    | error m => rw [hab] at hok; cases hok
    | ok tagged =>
      rw [hab] at hok
      have hret : ord.flatMap
          (fun d => (tagged.filter (fun t => t.1 == d)).map (fun t => t.2)) = ret := by
        simpa using hok
      rw [← hret] at hin
      obtain ⟨d, _, hmem2⟩ := List.mem_flatMap.mp hin
      obtain ⟨t, ht, hte⟩ := List.mem_map.mp hmem2
      have hnm := assignBuckets_ok_names ord r items tagged hab t (List.mem_of_mem_filter ht)
      have hu : t.2.1 = u := by rw [hte]
      rw [hu] at hnm
      exact hnm hname
  exact ⟨hnotin, fun hperm => hnotin (hperm.mem_iff.mp hmem)⟩

/-- Concrete registry for the C9 witness: the unit ghost resolves to a falsy
canonical name, every other unit to itself with the mass dimension. -/
def wreg9 : Registry :=
  ⟨fun u => if u = ("ghost") then ("") else u, fun _ => [("[mass]")]⟩

/-- C9 witness: dim_sort drops the ghost pair, so the two-element input comes
back as a one-element list that is not a permutation of it. -/
theorem claim_C9_witness :
    ((("ghost"), (1:ℚ)) ∉ [(("meter"), (2:ℚ))])
      ∧ ¬ ([(("ghost"), (1:ℚ)), (("meter"), (2:ℚ))].Perm [(("meter"), (2:ℚ))]) :=
  claim_C9_dim_sort_omits [("[mass]")] wreg9
    [(("ghost"), 1), (("meter"), 2)] [(("meter"), 2)] ("ghost") 1
    (by decide) (by decide) (by decide) (by decide)

/-- C4: with as_ratio false the formatter never applies the division
template: the result does not depend on division_fmt at all, and on the
successful path it is exactly the product-template join of the positive terms
followed by the negative terms. -/
theorem claim_C4_no_division (items : List (String × ℚ)) (sd : Bool)
    (pf d1 d2 pw par : String) (ec : ℚ → String) (s sdim : Bool)
    (ord : List String) (reg : Option Registry) (h : items ≠ []) :
    formatter items false sd pf d1 pw par ec s sdim ord reg
        = formatter items false sd pf d2 pw par ec s sdim ord reg
      ∧ formatter items false sd pf d1 pw par ec s sdim ord reg
        = (match (if sdim then dim_sort ord reg (if s then pySorted pairLE items else items)
                  else .ok (if s then pySorted pairLE items else items)) with
           | .error e => Except.error e
           | .ok its =>
             .ok (join pf ((classify false pw ec its).1 ++ (classify false pw ec its).2))) := by
  constructor <;>
  · simp only [formatter, if_neg h]
    cases (if sdim then dim_sort ord reg (if s then pySorted pairLE items else items)
           else .ok (if s then pySorted pairLE items else items)) <;> simp

/-- C4 witness: a concrete two-item list with as_ratio false renders the same
under two different division templates. -/
theorem claim_C4_witness :
    formatter [(("m"), 2), (("s"), -1)] false false (" * ") (" / ")
        ("\x7b\x7d ** \x7b\x7d") ("(\x7b0\x7d)") fmt_n true true defaultDimOrder none
      = formatter [(("m"), 2), (("s"), -1)] false false (" * ") ("/")
        ("\x7b\x7d ** \x7b\x7d") ("(\x7b0\x7d)") fmt_n true true defaultDimOrder none :=
  (claim_C4_no_division [(("m"), 2), (("s"), -1)] false (" * ") (" / ") ("/")
    ("\x7b\x7d ** \x7b\x7d") ("(\x7b0\x7d)") fmt_n true true defaultDimOrder none
    (by decide)).1

/-- Embeds register_unit_format together with its returned wrapper, acting on
an explicit registry state: registering a name already present raises the
duplicate-format error before any mutation, otherwise the renderer is stored
under the name. -/
def register_unit_format (name : String) (func : α) (fmts : String → Option α) :
    Option String × (String → Option α) :=
  if (fmts name).isSome then
    (some (("format \x27") ++ name ++ ("\x27 already exists")), fmts)
  else (none, fun n => if n = name then some func else fmts n)

/-- C8: registering a renderer under a name that is already registered
produces the duplicate-format error, leaves the whole registry unchanged, and
in particular the renderer previously stored under that name is intact. -/
theorem claim_C8_duplicate_register {α : Type} (name : String) (f g : α)
    (fmts : String → Option α) (h : fmts name = some g) :
    (register_unit_format name f fmts).1
        = some (("format \x27") ++ name ++ ("\x27 already exists"))
      ∧ (register_unit_format name f fmts).2 = fmts
      ∧ (register_unit_format name f fmts).2 name = some g := by
  have hs : (fmts name).isSome = true := by rw [h]; rfl
  refine ⟨?_, ?_, ?_⟩ <;> simp [register_unit_format, hs, h]

/-- C8 witness: re-registering the name P over a one-entry registry errors
and the old renderer stays. -/
theorem claim_C8_witness :
    (register_unit_format ("P") 2 (fun n => if n = ("P") then some 1 else none)).1
        = some (("format \x27") ++ ("P") ++ ("\x27 already exists"))
      ∧ (register_unit_format ("P") 2 (fun n => if n = ("P") then some 1 else none)).2
        = (fun n => if n = ("P") then some 1 else none)
      ∧ (register_unit_format ("P") 2 (fun n => if n = ("P") then some 1 else none)).2 ("P")
        = some 1 :=
  claim_C8_duplicate_register ("P") 2 1 (fun n => if n = ("P") then some 1 else none)
    (by decide)

/-- Embeds the module-level format_unit (the method Formatter.format_unit has
the same falsy-unit short circuit): an empty unit mapping returns early, a
missing spec falls back to D, an unregistered spec raises, and otherwise the
registered renderer is applied. -/
def format_unit (unit : List (String × ℚ)) (spec : String)
    (fmts : String → Option (List (String × ℚ) → String)) : Except String String :=
  if unit = [] then
    if spec.endsWith ("%") then .ok ("") else .ok ("dimensionless")
  else
    let spec1 := if spec = ("") then ("D") else spec
    match fmts spec1 with
    | none => .error (("Unknown conversion specified: ") ++ spec1)
    | some f => .ok (f unit)

/-- C10: on an empty unit mapping, format_unit returns the empty string when
the spec ends in a percent sign and the string dimensionless otherwise, for
every spec and every registry state: no lookup happens and no unknown-spec
error can be raised. -/
theorem claim_C10_empty_unit (spec : String)
    (fmts : String → Option (List (String × ℚ) → String)) :
    format_unit [] spec fmts
      = .ok (if spec.endsWith ("%") then ("") else ("dimensionless")) := by
  by_cases he : spec.endsWith ("%") = true <;> simp [format_unit, he]

/-- Python str.rstrip with the single character zero: drop every trailing
zero character. -/
def rstrip0 (s : String) : String :=
  ⟨(s.data.reverse.dropWhile (fun c => c == '0')).reverse⟩

/-- Pad a remainder below one thousand to exactly three digits. -/
def pad3 (n : Nat) : String :=
  if n < 10 then ("00") ++ toString n
  else if n < 100 then ("0") ++ toString n
  else toString n

/-- Rounding q times one thousand to the nearest integer, halves up: floor of
(2 num 1000 + den) over (2 den).  Models the three-decimal rounding of the
Python fixed-point format; Python rounds the underlying binary float half to
even, which agrees on the exactly representable values exercised here. -/
def round3 (q : ℚ) : ℤ :=
  (2 * (q.num * 1000) + (q.den : ℤ)).fdiv (2 * (q.den : ℤ))

/-- Python format code .3f on the exponent value: sign, integer part, point,
three fraction digits. -/
def fmt3f (q : ℚ) : String :=
  let a := (round3 |q|).toNat
  (if q < 0 then ("-") else ("")) ++ toString (a / 1000) ++ (".") ++ pad3 (a % 1000)

/-- Embeds the inner helper of Formatter.siunitx_format_unit: an integral
power renders as nothing, squared, cubed or tothe of the integer; a
non-integral power renders through the three-decimal format and the result
string is right-stripped of zero characters, which is ineffective because the
string ends in a closing brace. -/
def _tothe (power : ℚ) : String :=
  if power.den = 1 then
    if power = 1 then ("")
    else if power = 2 then ("\\squared")
    else if power = 3 then ("\\cubed")
    else ("\\tothe\x7b") ++ toString power.num ++ ("\x7d")
  else rstrip0 (("\\tothe\x7b") ++ fmt3f power ++ ("\x7d"))

/-- The prefix-stripping loop of siunitx_format_unit: every nonempty registry
prefix that starts the current unit name is removed in turn, remembering the
last prefix removed. -/
def stripPre : List String → Option String → String → Option String × String
  | [], acc, u => (acc, u)
  | p :: ps, acc, u =>
    if (!p.isEmpty) && u.startsWith p then stripPre ps (some p) (u.drop p.length)
    else stripPre ps acc u

/-- The per-unit loop of siunitx_format_unit: each unit contributes per when
its power is negative, the stripped prefix, the unit name and the rendered
power, appended to the nonnegative or negative list by the sign of its
power. -/
def siunitxLoop (prefixes : List String) : List (String × ℚ) → List String × List String
  | [] => ([], [])
  | (unit, power) :: rest =>
    let pu := stripPre prefixes none unit
    let entry := (if power < 0 then [("\\per")] else [])
      ++ (match pu.1 with | some p => [("\\") ++ p] | none => [])
      ++ [("\\") ++ pu.2, _tothe |power|]
    let tailRes := siunitxLoop prefixes rest
    if 0 ≤ power then (entry ++ tailRes.1, tailRes.2) else (tailRes.1, entry ++ tailRes.2)

/-- Embeds Formatter.siunitx_format_unit: items sorted, looped as above, then
the nonnegative block concatenated before the negative block. -/
def siunitx_format_unit (prefixes : List String) (units : List (String × ℚ)) : String :=
  let lp := siunitxLoop prefixes (pySorted pairLE units)
  String.join lp.1 ++ String.join lp.2

/-- C3 (failing evaluation): a unit with exponent one half renders its power
suffix with the trailing zeros intact, because the rstrip of zero characters
is applied to a string that ends in a closing brace; the claim and the spec
promise the trimmed form with 0.5 inside the braces. -/
theorem claim_C3_failing_eval :
    _tothe (mkRat 1 2) = ("\\tothe\x7b0.500\x7d")
      ∧ siunitx_format_unit [] [(("meter"), mkRat 1 2)] = ("\\meter\\tothe\x7b0.500\x7d") := by
  constructor <;> decide

/-- Pattern p is a starting segment of the character list s. -/
def startsWithList : List Char → List Char → Bool
  | [], _ => true
  | _ :: _, [] => false
  | p :: ps, c :: cs => p == c && startsWithList ps cs

/-- Python s.replace(pat, empty) for a nonempty pattern: delete the
non-overlapping occurrences of pat scanning left to right without rescanning
replaced text; the empty pattern deletes nothing (remove_custom_flags guards
it with `if flag`). -/
def removeAll (pat : List Char) : List Char → List Char
  | [] => []
  | c :: cs =>
    if (!pat.isEmpty) && startsWithList pat (c :: cs) then
      removeAll pat (List.drop (pat.length - 1) cs)
    else c :: removeAll pat cs
termination_by s => s.length
decreasing_by
  · simp only [List.length_drop, List.length_cons]; omega
  · simp only [List.length_cons]; omega

/-- Python re.findall over an alternation of literal words, with the matches
concatenated: scan left to right, at each position take the first alternative
that matches there, and move one character on when none does. -/
def findallJoin (alts : List (List Char)) : List Char → List Char
  | [] => []
  | c :: cs =>
    match alts.find? (fun p => (!p.isEmpty) && startsWithList p (c :: cs)) with
    | some p => p ++ findallJoin alts (List.drop (p.length - 1) cs)
    | none => findallJoin alts cs
termination_by s => s.length
decreasing_by
  · simp only [List.length_drop, List.length_cons]; omega
  · simp only [List.length_cons]; omega

/-- The two-character flag Lx. -/
def lxFlag : List Char := ['L', 'x']

/-- The registered format names at module import time, sorted longest first
exactly as both splitter helpers sort them. -/
def knownFlags : List (List Char) := [lxFlag, ['P'], ['L'], ['H'], ['D'], ['C']]

/-- The flag list the splitter works with: the known flags and the tilde. -/
def allFlags : List (List Char) := knownFlags ++ [['~']]

/-- Embeds remove_custom_flags on character lists: sequentially delete every
flag, longest first, then the tilde. -/
def removeFlagsCore (s : List Char) : List Char :=
  allFlags.foldl (fun l p => removeAll p l) s

/-- Embeds extract_custom_flags on character lists: the concatenated regex
matches of the flag alternation. -/
def extractFlagsCore (s : List Char) : List Char :=
  findallJoin allFlags s

/-- Embeds remove_custom_flags. -/
def remove_custom_flags (spec : String) : String := ⟨removeFlagsCore spec.data⟩

/-- Embeds extract_custom_flags. -/
def extract_custom_flags (spec : String) : String := ⟨extractFlagsCore spec.data⟩

/-- Embeds Formatter.split_format; the legacy mode only adds deprecation
warnings, which do not change the returned pair. -/
def split_format (spec default : String) (separate_format_defaults : Bool) :
    String × String :=
  let mspec := remove_custom_flags spec
  let uspec := extract_custom_flags spec
  let dm := remove_custom_flags default
  let du := extract_custom_flags default
  if separate_format_defaults = false then
    if spec = ("") then (dm, du) else (mspec, uspec)
  else
    (if mspec = ("") then dm else mspec, if uspec = ("") then du else uspec)

/-- A character that is none of the single-character flags. -/
def notFlag (c : Char) : Bool :=
  !(('P' == c) || ('L' == c) || ('H' == c) || ('D' == c) || ('C' == c) || ('~' == c))

lemma removeAll_single (a : Char) (s : List Char) :
    removeAll [a] s = s.filter (fun c => !(a == c)) := by
  induction s with
  | nil => simp [removeAll]
  | cons c cs ih =>
    by_cases h : a = c
    · subst h
      simp [removeAll, startsWithList, ih]
    · simp [removeAll, startsWithList, ih, h]

/-- The six single-character removal passes that follow the Lx pass. -/
def postFilters (l : List Char) : List Char :=
  removeAll ['~'] (removeAll ['C'] (removeAll ['D'] (removeAll ['H']
    (removeAll ['L'] (removeAll ['P'] l)))))

lemma removeFlagsCore_eq (s : List Char) :
    removeFlagsCore s = postFilters (removeAll lxFlag s) := rfl

lemma notFlag_false_cases (c : Char) (h : notFlag c = false) :
    ('P' = c) ∨ ('L' = c) ∨ ('H' = c) ∨ ('D' = c) ∨ ('C' = c) ∨ ('~' = c) := by
  have h' := h
  simp only [notFlag, Bool.not_eq_false', Bool.or_eq_true, beq_iff_eq] at h'
  tauto

lemma notFlag_true_cases (c : Char) (h : notFlag c = true) :
    ¬('P' = c) ∧ ¬('L' = c) ∧ ¬('H' = c) ∧ ¬('D' = c) ∧ ¬('C' = c) ∧ ¬('~' = c) := by
  have h' := h
  simp only [notFlag, Bool.not_eq_true', Bool.or_eq_false_iff, beq_eq_false_iff_ne,
    ne_eq] at h'
  tauto

lemma postFilters_cons_flag (c : Char) (l : List Char) (h : notFlag c = false) :
    postFilters (c :: l) = postFilters l := by
  have hd := notFlag_false_cases c h
  simp only [postFilters, removeAll_single]
  rcases hd with rfl | rfl | rfl | rfl | rfl | rfl <;> simp

lemma postFilters_cons_keep (c : Char) (l : List Char) (h : notFlag c = true) :
    postFilters (c :: l) = c :: postFilters l := by
  obtain ⟨h1, h2, h3, h4, h5, h6⟩ := notFlag_true_cases c h
  simp only [postFilters, removeAll_single]
  simp [List.filter_cons, h1, h2, h3, h4, h5, h6]

lemma removeLx_cons_Lx (t : List Char) :
    removeAll lxFlag ('L' :: 'x' :: t) = removeAll lxFlag t := by
  simp [removeAll, lxFlag, startsWithList]

lemma removeLx_cons_L (t : List Char) (h : startsWithList ['x'] t = false) :
    removeAll lxFlag ('L' :: t) = 'L' :: removeAll lxFlag t := by
  rw [removeAll]
  simp [lxFlag, startsWithList, h]

lemma removeLx_cons_ne (c : Char) (t : List Char) (h : ('L' == c) = false) :
    removeAll lxFlag (c :: t) = c :: removeAll lxFlag t := by
  rw [removeAll]
  simp [lxFlag, startsWithList, h]

lemma extract_cons_Lx (t : List Char) :
    findallJoin allFlags ('L' :: 'x' :: t) = 'L' :: 'x' :: findallJoin allFlags t := by
  rw [findallJoin]
  simp [allFlags, knownFlags, lxFlag, startsWithList, List.find?]

lemma extract_cons_L (t : List Char) (h : startsWithList ['x'] t = false) :
    findallJoin allFlags ('L' :: t) = 'L' :: findallJoin allFlags t := by
  rw [findallJoin]
  simp [allFlags, knownFlags, lxFlag, startsWithList, List.find?, h]

lemma startsWithList_x_iff (t : List Char) :
    startsWithList ['x'] t = true ↔ ∃ t2, t = 'x' :: t2 := by
  cases t with
  | nil => simp [startsWithList]
  | cons c cs =>
    simp only [startsWithList, Bool.and_true]
    constructor
    · intro h
      exact ⟨cs, by rw [eq_of_beq h]⟩
    · rintro ⟨t2, ht⟩
      cases ht
      simp

lemma removeAll_nil (pat : List Char) : removeAll pat [] = [] := by
  simp [removeAll]

lemma findallJoin_nil (alts : List (List Char)) : findallJoin alts [] = [] := by
  simp [findallJoin]

lemma removeFlagsCore_nil : removeFlagsCore [] = [] := by
  rw [removeFlagsCore_eq]
  simp [postFilters, removeAll_nil]

lemma extractFlagsCore_nil : extractFlagsCore [] = [] := by
  rw [extractFlagsCore]
  exact findallJoin_nil _

lemma removeExtract_key : ∀ n : Nat, ∀ s : List Char, s.length ≤ n →
    ((removeFlagsCore s : List Char) : Multiset Char) + ((extractFlagsCore s : List Char) : Multiset Char)
      = (s : Multiset Char) := by
  intro n
  induction n with
  | zero =>
    intro s hs
    have hnil : s = [] := List.eq_nil_of_length_eq_zero (Nat.le_zero.mp hs)
    subst hnil
    simp [removeFlagsCore_nil, extractFlagsCore_nil]
  | succ n ih =>
    intro s hs
    match s with
    | [] => simp [removeFlagsCore_nil, extractFlagsCore_nil]
    | c :: t =>
      by_cases hL : c = 'L'
      · subst hL
        by_cases hx : startsWithList ['x'] t = true
        · obtain ⟨t2, rfl⟩ := (startsWithList_x_iff t).mp hx
          have ih2 := ih t2 (by simp only [List.length_cons] at hs; omega)
          rw [removeFlagsCore_eq, removeLx_cons_Lx, ← removeFlagsCore_eq]
          rw [extractFlagsCore, extract_cons_Lx, ← extractFlagsCore]
          rw [← Multiset.cons_coe, ← Multiset.cons_coe, Multiset.add_cons, Multiset.add_cons,
            ih2, Multiset.cons_coe, Multiset.cons_coe]
        · have hxf : startsWithList ['x'] t = false := by
            cases hv : startsWithList ['x'] t
            · rfl
            · exact absurd hv hx
          have ih1 := ih t (by simp only [List.length_cons] at hs; omega)
          rw [removeFlagsCore_eq, removeLx_cons_L t hxf, postFilters_cons_flag _ _ (by rfl),
            ← removeFlagsCore_eq]
          rw [extractFlagsCore, extract_cons_L t hxf, ← extractFlagsCore]
          rw [← Multiset.cons_coe, Multiset.add_cons, ih1, Multiset.cons_coe]
      · have hLb : ('L' == c) = false := by
          cases hv : ('L' == c)
          · rfl
          · exact absurd (eq_of_beq hv).symm hL
        have ih1 := ih t (by simp only [List.length_cons] at hs; omega)
        by_cases hF : notFlag c = true
        · have hcons : findallJoin allFlags (c :: t) = findallJoin allFlags t := by
            obtain ⟨h1, h2, h3, h4, h5, h6⟩ := notFlag_true_cases c hF
            have b1 : ('P' == c) = false := beq_eq_false_iff_ne.mpr h1
            have b3 : ('H' == c) = false := beq_eq_false_iff_ne.mpr h3
            have b4 : ('D' == c) = false := beq_eq_false_iff_ne.mpr h4
            have b5 : ('C' == c) = false := beq_eq_false_iff_ne.mpr h5
            have b6 : ('~' == c) = false := beq_eq_false_iff_ne.mpr h6
            rw [findallJoin]
            simp [allFlags, knownFlags, lxFlag, startsWithList, List.find?,
              hLb, b1, b3, b4, b5, b6]
          rw [removeFlagsCore_eq, removeLx_cons_ne c t hLb, postFilters_cons_keep _ _ hF,
            ← removeFlagsCore_eq]
          rw [extractFlagsCore, hcons, ← extractFlagsCore]
          rw [← Multiset.cons_coe, Multiset.cons_add, ih1, Multiset.cons_coe]
        · have hFf : notFlag c = false := by
            cases hv : notFlag c
            · rfl
            · exact absurd hv hF
          have hd : ('P' = c) ∨ ('H' = c) ∨ ('D' = c) ∨ ('C' = c) ∨ ('~' = c) := by
            have hall := notFlag_false_cases c hFf
            have hc' : ¬('L' = c) := fun hh => hL hh.symm
            tauto
          have hcons : findallJoin allFlags (c :: t) = c :: findallJoin allFlags t := by
            rcases hd with rfl | rfl | rfl | rfl | rfl <;>
            · rw [findallJoin]
              simp [allFlags, knownFlags, lxFlag, startsWithList, List.find?]
          rw [removeFlagsCore_eq, removeLx_cons_ne c t hLb, postFilters_cons_flag _ _ hFf,
            ← removeFlagsCore_eq]
          rw [extractFlagsCore, hcons, ← extractFlagsCore]
          rw [← Multiset.cons_coe, Multiset.add_cons, ih1, Multiset.cons_coe]

/-- C5: splitting a spec string loses and duplicates no character: the
characters of the magnitude sub-spec (remove_custom_flags) together with the
characters of the unit sub-spec (extract_custom_flags) form exactly the
multiset of characters of the original spec. -/
theorem claim_C5_split_roundtrip (spec : String) :
    (((remove_custom_flags spec).data ++ (extract_custom_flags spec).data : List Char) : Multiset Char)
      = ((spec.data : List Char) : Multiset Char) := by
  have h := removeExtract_key spec.data.length spec.data (le_refl _)
  calc (((remove_custom_flags spec).data ++ (extract_custom_flags spec).data : List Char) : Multiset Char)
      = ((removeFlagsCore spec.data : List Char) : Multiset Char)
          + ((extractFlagsCore spec.data : List Char) : Multiset Char) := by
        rw [← Multiset.coe_add]
        rfl
    _ = (spec.data : Multiset Char) := h

end PintFmt
